import Mathlib

/-!
Shallow embedding of the `logs` package of `faas-provider`:
the log `Request` / `Message` data model, the GET/POST request parser
(`parseRequest`, `getValue`), and the streaming handler loop of
`NewLogHandlerFunc` (`handler.go`).

Modelling conventions:
* `GoTime` stands for Go's `time.Time`; `time.Parse(time.RFC3339, s)` is
  modelled by an abstract oracle `pt : String → Option GoTime` (the Go
  function returns the zero `time.Time` together with an error on failure,
  which `GoTime.zero` represents).
* `url.Values` (the decoded query string) is modelled as the ordered list of
  key/value pairs; `getAll q k` is Go's `q[k]`, the values of key `k` in
  order of appearance.
* `strconv.Atoi` and `strconv.ParseBool` are implemented concretely
  (`atoi`, `parseBool`); `none` stands for a non-nil error.
* `json.Encoder.Encode` on one message (serialize + write + newline) is an
  abstract oracle `enc : Message → Option String`: `some line` means the
  line was written, `none` a serialization/write error.
* The handler loop consumes the message channel as a finite list (the list
  being exhausted models the channel closing); the handler's observable
  output is the ordered list of written body lines.
-/

/-- Go `time.Time`, reduced to a point on the time line. -/
structure GoTime where
  unixNano : Int
deriving DecidableEq, Repr

/-- The zero `time.Time`, which Go's `time.Parse` returns alongside an error. -/
def GoTime.zero : GoTime := ⟨0⟩

/-- `logs.Request`: the query to return the function logs. -/
structure Request where
  Name : String
  Instance : String
  Since : Option GoTime
  Limit : Int
  Follow : Bool
  Pattern : Option String
  Invert : Bool
deriving DecidableEq, Repr

/-- The zero value of `logs.Request`. -/
def Request.empty : Request :=
  { Name := "", Instance := "", Since := none, Limit := 0,
    Follow := false, Pattern := none, Invert := false }

/-- `logs.Message`: one log message from a function container log stream. -/
structure Message where
  Name : String
  Instance : String
  Timestamp : GoTime
  Text : String
deriving DecidableEq, Repr

/-- Decoded query string, in order of appearance: models `url.Values`
together with the order information `url.ParseQuery` preserves per key. -/
abbrev QueryValues := List (String × String)

/-- Go `query[name]`: all values for key `name` in order of appearance. -/
def getAll (queryValues : QueryValues) (name : String) : List String :=
  (queryValues.filter (fun p => p.1 == name)).map Prod.snd

/-- `getValue` from `handler.go`: the value for the given key; if the key has
more than one value it returns the last value; if the value does not exist it
returns the empty string. -/
def getValue (queryValues : QueryValues) (name : String) : String :=
  let values := getAll queryValues name
  if values.isEmpty then ""
  else values.getLastD ""

/-- Go `strconv.Atoi`: optional sign, then at least one decimal digit,
value must fit a 64-bit `int`; `none` models a non-nil error. -/
def atoi (s : String) : Option Int :=
  match s.data with
  | [] => none
  | c :: rest =>
    let neg : Bool := c = '-'
    let digits : List Char := if c = '-' ∨ c = '+' then rest else c :: rest
    if digits.isEmpty then none
    else if digits.all Char.isDigit then
      let n : Nat := digits.foldl (fun acc d => acc * 10 + (d.toNat - 48)) 0
      let v : Int := if neg then -(n : Int) else (n : Int)
      if v < -(2 ^ 63) ∨ 2 ^ 63 - 1 < v then none else some v
    else none

/-- Go `strconv.ParseBool`: accepts exactly the listed literals, `none`
models a non-nil error (in which case Go returns `false` as the value). -/
def parseBool (s : String) : Option Bool :=
  if s = "1" ∨ s = "t" ∨ s = "T" ∨ s = "TRUE" ∨ s = "true" ∨ s = "True" then some true
  else if s = "0" ∨ s = "f" ∨ s = "F" ∨ s = "FALSE" ∨ s = "false" ∨ s = "False" then some false
  else none

/-- The GET branch of `parseRequest` from `handler.go`, with Go's early
returns written as nested conditionals.  The second component is `true` iff
the returned `error` is non-nil.  `pt` is the `time.Parse(time.RFC3339, ·)`
oracle; on failure Go assigns the zero time to `logRequest.Since` before
checking the error, which `(pt s).getD GoTime.zero` reproduces. -/
def parseGet (pt : String → Option GoTime) (query : QueryValues) : Request × Bool :=
  let lr0 : Request :=
    { Request.empty with Name := getValue query "name", Instance := getValue query "instance" }
  let limitStr := getValue query "limit"
  if limitStr ≠ "" ∧ (atoi limitStr).isNone then
    ({ lr0 with Limit := 0 }, true)
  else
    let lr1 : Request :=
      if limitStr = "" then lr0 else { lr0 with Limit := (atoi limitStr).getD 0 }
    let lr2 : Request :=
      { lr1 with Follow := (parseBool (getValue query "follow")).getD false,
                 Invert := (parseBool (getValue query "invert")).getD false }
    let sinceStr := getValue query "since"
    if sinceStr ≠ "" ∧ (pt sinceStr).isNone then
      ({ lr2 with Since := some ((pt sinceStr).getD GoTime.zero) }, true)
    else
      let lr3 : Request :=
        if sinceStr = "" then lr2
        else { lr2 with Since := some ((pt sinceStr).getD GoTime.zero) }
      let patterns := getAll query "pattern"
      let lr4 : Request :=
        if 0 < patterns.length then { lr3 with Pattern := patterns.getLast? } else lr3
      (lr4, false)

/-- `parseGet` with each parameter's effective value passed directly: the
last occurrence of the key (`Option.getD ""` for the string parameters, the
raw last occurrence for `pattern`).  Used to state that `parseGet` reads the
query string only through the last occurrence of each key. -/
def parseGetLast (pt : String → Option GoTime)
    (nameV instanceV limitV followV invertV sinceV : String)
    (patternV : Option String) : Request × Bool :=
  let lr0 : Request := { Request.empty with Name := nameV, Instance := instanceV }
  if limitV ≠ "" ∧ (atoi limitV).isNone then
    ({ lr0 with Limit := 0 }, true)
  else
    let lr1 : Request :=
      if limitV = "" then lr0 else { lr0 with Limit := (atoi limitV).getD 0 }
    let lr2 : Request :=
      { lr1 with Follow := (parseBool followV).getD false,
                 Invert := (parseBool invertV).getD false }
    if sinceV ≠ "" ∧ (pt sinceV).isNone then
      ({ lr2 with Since := some ((pt sinceV).getD GoTime.zero) }, true)
    else
      let lr3 : Request :=
        if sinceV = "" then lr2
        else { lr2 with Since := some ((pt sinceV).getD GoTime.zero) }
      let lr4 : Request :=
        if patternV.isSome then { lr3 with Pattern := patternV } else lr3
      (lr4, false)

/-- HTTP method of the inbound request. -/
inductive HttpMethod
  | get
  | post
  | other
deriving DecidableEq, Repr

/-- The inbound HTTP request, reduced to what `parseRequest` reads: the
method, the decoded query string, and — for POST — the result of
`json.NewDecoder(r.Body).Decode(&logRequest)` as an oracle (decoded request
and whether the decoder returned a non-nil error). -/
structure HttpRequest where
  method : HttpMethod
  query : QueryValues
  body : Request × Bool

/-- `parseRequest` from `handler.go`: extracts the log request from the GET
variables or from the POST body; any other method yields the zero request
and a nil error. -/
def parseRequest (pt : String → Option GoTime) (r : HttpRequest) : Request × Bool :=
  match r.method with
  | .get => parseGet pt r.query
  | .post => r.body
  | .other => (Request.empty, false)

/-- The message the handler serializes as its best-effort in-band error line
when `jsonEncoder.Encode(msg)` fails: `Message{Text: "failed to serialize
log message"}`. -/
def fallbackMessage : Message :=
  { Name := "", Instance := "", Timestamp := GoTime.zero,
    Text := "failed to serialize log message" }

/-- The best-effort fallback write: `jsonEncoder.Encode(Message{Text: ...})`
with its error discarded — if that encode also fails, nothing is written. -/
def fallbackWrite (enc : Message → Option String) : List String :=
  match enc fallbackMessage with
  | some line => [line]
  | none => []

/-- The message loop of `NewLogHandlerFunc` (`for messages != nil { select ... }`),
restricted to the stream events: the remaining channel contents are the list
argument, the empty list is the closed channel, and `sent` is the running
count of sent messages.  Per message: if `requestor.Filter` rejects it,
continue without counting; otherwise `jsonEncoder.Encode` it — on encode
error write the fallback line and return; after a successful write, if
`logRequest.Limit > 0`, increment `sent` and return once `sent` reaches the
limit.  The result is the list of body lines written from this point on. -/
def streamLoop (efilter : Request → Message → Bool) (enc : Message → Option String)
    (logRequest : Request) (sent : Nat) : List Message → List String
  | [] => []
  | msg :: rest =>
    if ¬ efilter logRequest msg then
      streamLoop efilter enc logRequest sent rest
    else
      match enc msg with
      | none => fallbackWrite enc
      | some line =>
        if 0 < logRequest.Limit then
          if logRequest.Limit ≤ (sent + 1 : Nat) then [line]
          else line :: streamLoop efilter enc logRequest (sent + 1) rest
        else
          line :: streamLoop efilter enc logRequest sent rest

/-- The body lines the handler writes for a given query and stream contents:
the message loop entered with `sent = 0`. -/
def streamWrites (efilter : Request → Message → Bool) (enc : Message → Option String)
    (logRequest : Request) (msgs : List Message) : List String :=
  streamLoop efilter enc logRequest 0 msgs

/-- The handler's observable outcome: the HTTP status code written, whether
`requestor.Query` was invoked, and the ordered body lines of the stream. -/
structure HandlerResult where
  status : Nat
  queryCalled : Bool
  body : List String
deriving DecidableEq, Repr

/-- The handler of `NewLogHandlerFunc`, one request end to end:
`CloseNotifier` / `Flusher` support checks (404 on failure), `parseRequest`
(422 on failure, before the requestor is consulted), `requestor.Query`
(500 on failure), then the 200 streaming phase.  The requestor's `Query`
is modelled by its result `query : Request → Except Unit (List Message)`
and its `Filter` by `efilter`. -/
def logHandler (isCloseNotifier isFlusher : Bool) (pt : String → Option GoTime)
    (query : Request → Except Unit (List Message))
    (efilter : Request → Message → Bool) (enc : Message → Option String)
    (r : HttpRequest) : HandlerResult :=
  if ¬ isCloseNotifier then ⟨404, false, []⟩
  else if ¬ isFlusher then ⟨404, false, []⟩
  else
    let parsed := parseRequest pt r
    if parsed.2 then ⟨422, false, []⟩
    else
      match query parsed.1 with
      | .error _ => ⟨500, true, []⟩
      | .ok messages => ⟨200, true, streamWrites efilter enc parsed.1 messages⟩

/-! ### Lemmas about the message loop -/

theorem streamLoop_nolimit (efilter : Request → Message → Bool) (e : Message → String)
    (lr : Request) (hL : lr.Limit ≤ 0) :
    ∀ (msgs : List Message) (sent : Nat),
      streamLoop efilter (fun m => some (e m)) lr sent msgs
        = (msgs.filter (efilter lr)).map e := by
  intro msgs
  induction msgs with
  | nil => intro sent; simp [streamLoop]
  | cons m rest ih =>
    intro sent
    by_cases hf : efilter lr m
    · have hnot : ¬ (0 : Int) < lr.Limit := by omega
      simp [streamLoop, hf, hnot, List.filter_cons, ih]
    · simp [streamLoop, hf, List.filter_cons, ih]

theorem streamLoop_limit (efilter : Request → Message → Bool) (e : Message → String)
    (lr : Request) (k : Nat) (hk : lr.Limit = (k : Int)) :
    ∀ (msgs : List Message) (sent : Nat), sent < k →
      k - sent ≤ (msgs.filter (efilter lr)).length →
      streamLoop efilter (fun m => some (e m)) lr sent msgs
        = ((msgs.filter (efilter lr)).take (k - sent)).map e := by
  intro msgs
  induction msgs with
  | nil =>
    intro sent h1 h2
    simp at h2
    omega
  | cons m rest ih =>
    intro sent h1 h2
    rw [List.filter_cons] at h2 ⊢
    by_cases hf : efilter lr m
    · rw [if_pos hf] at h2 ⊢
      have hpos : (0 : Int) < lr.Limit := by
        rw [hk]; exact_mod_cast (show 0 < k by omega)
      by_cases hc : k ≤ sent + 1
      · have hstop : lr.Limit ≤ (sent : Int) + 1 := by
          rw [hk]; exact_mod_cast hc
        have hone : k - sent = 1 := by omega
        simp [streamLoop, hf, hpos, hstop, hone]
      · have hstop : ¬ lr.Limit ≤ (sent : Int) + 1 := by
          rw [hk]; intro hcon; exact hc (by exact_mod_cast hcon)
        have ihh := ih (sent + 1) (by omega) (by simp at h2; omega)
        have hsucc : k - sent = (k - (sent + 1)) + 1 := by omega
        rw [hsucc, List.take_succ_cons]
        simp [streamLoop, hf, hpos, hstop, ihh]
    · rw [if_neg hf] at h2 ⊢
      have ihh := ih sent h1 h2
      simp [streamLoop, hf, ihh]

theorem streamLoop_fault (efilter : Request → Message → Bool) (enc : Message → Option String)
    (e : Message → String) (lr : Request) (bad : Message) (post : List Message)
    (h2 : efilter lr bad = true) (h3 : enc bad = none) :
    ∀ (pre : List Message) (sent : Nat),
      (∀ m ∈ pre, efilter lr m = true → enc m = some (e m)) →
      (lr.Limit ≤ 0 ∨ ((sent + (pre.filter (efilter lr)).length : Nat) : Int) < lr.Limit) →
      streamLoop efilter enc lr sent (pre ++ bad :: post)
        = ((pre.filter (efilter lr)).map e) ++ fallbackWrite enc := by
  intro pre
  induction pre with
  | nil =>
    intro sent h1 h4
    simp [streamLoop, h2, h3]
  | cons m pre ih =>
    intro sent h1 h4
    rw [List.filter_cons] at h4 ⊢
    by_cases hf : efilter lr m
    · rw [if_pos hf] at h4 ⊢
      have henc : enc m = some (e m) := h1 m (by simp) hf
      by_cases hpos : (0 : Int) < lr.Limit
      · have h4' : ((sent + ((pre.filter (efilter lr)).length + 1) : Nat) : Int) < lr.Limit := by
          rcases h4 with h4 | h4
          · omega
          · simpa using h4
        have hcont : ¬ lr.Limit ≤ (sent : Int) + 1 := by
          intro hcon
          have hge : (0 : Int) ≤ ((pre.filter (efilter lr)).length : Int) := by positivity
          push_cast at h4'
          omega
        have ihh := ih (sent + 1) (fun x hx hfx => h1 x (by simp [hx]) hfx)
          (Or.inr (by push_cast at h4' ⊢; omega))
        simp [streamLoop, hf, henc, hpos, hcont, ihh]
      · have ihh := ih sent (fun x hx hfx => h1 x (by simp [hx]) hfx)
          (Or.inl (by omega))
        simp [streamLoop, hf, henc, hpos, ihh]
    · rw [if_neg hf] at h4 ⊢
      have ihh := ih sent (fun x hx hfx => h1 x (by simp [hx]) hfx) h4
      simp [streamLoop, hf, ihh]

/-! ### Claim theorems for the streaming handler -/

/-- C1: for every finite message stream and every log request with
`Limit = k`, `0 < k`, where the stream yields at least `k` filter-kept
messages and serialization succeeds, the message loop writes exactly the
first `k` kept messages, in stream order, and terminates; the request's
`Follow` flag (like its other fields) is unconstrained. -/
theorem limit_writes_exactly_k (efilter : Request → Message → Bool) (e : Message → String)
    (lr : Request) (k : Nat) (msgs : List Message)
    (hk : lr.Limit = (k : Int)) (hk0 : 0 < k)
    (hlen : k ≤ (msgs.filter (efilter lr)).length) :
    streamWrites efilter (fun m => some (e m)) lr msgs
      = ((msgs.filter (efilter lr)).take k).map e := by
  have h := streamLoop_limit efilter e lr k hk msgs 0 hk0 (by simpa using hlen)
  simpa using h

/-- Witness for C1: three messages, limit 2, trivial filter — exactly the
first two texts are written. -/
theorem limit_writes_exactly_k_witness :
    streamWrites (fun _ _ => true) (fun m => some m.Text)
      { Request.empty with Limit := 2 }
      [⟨"f", "i", ⟨0⟩, "a"⟩, ⟨"f", "i", ⟨0⟩, "b"⟩, ⟨"f", "i", ⟨0⟩, "c"⟩]
      = ["a", "b"] := by
  have h := limit_writes_exactly_k (fun _ _ => true) (fun m => m.Text)
    { Request.empty with Limit := 2 } 2
    [⟨"f", "i", ⟨0⟩, "a"⟩, ⟨"f", "i", ⟨0⟩, "b"⟩, ⟨"f", "i", ⟨0⟩, "c"⟩]
    (by decide) (by decide) (by decide)
  exact h.trans (by decide)

/-- C2: a message the collaborator's `Filter` rejects is never written and
never counted toward the limit: the loop on it is the loop on the remaining
messages with the same `sent` count. -/
theorem filtered_message_skipped (efilter : Request → Message → Bool)
    (enc : Message → Option String) (lr : Request) (sent : Nat)
    (msg : Message) (rest : List Message) (hf : efilter lr msg = false) :
    streamLoop efilter enc lr sent (msg :: rest)
      = streamLoop efilter enc lr sent rest := by
  simp [streamLoop, hf]

/-- Witness for C2: a filter rejecting text `"x"` makes the loop on
`x :: ys` agree with the loop on `ys`. -/
theorem filtered_message_skipped_witness :
    streamLoop (fun _ m => m.Text != "x") (fun m => some m.Text) Request.empty 0
        [⟨"f", "i", ⟨0⟩, "x"⟩, ⟨"f", "i", ⟨0⟩, "y"⟩]
      = streamLoop (fun _ m => m.Text != "x") (fun m => some m.Text) Request.empty 0
        [⟨"f", "i", ⟨0⟩, "y"⟩] :=
  filtered_message_skipped (fun _ m => m.Text != "x") (fun m => some m.Text)
    Request.empty 0 ⟨"f", "i", ⟨0⟩, "x"⟩ [⟨"f", "i", ⟨0⟩, "y"⟩] (by decide)

/-- C3: with `Limit ≤ 0` and successful serialization, the message loop
writes every filter-kept message the stream yields, in order, until the
stream closes — no limit-based termination occurs. -/
theorem no_limit_writes_all (efilter : Request → Message → Bool) (e : Message → String)
    (lr : Request) (msgs : List Message) (hL : lr.Limit ≤ 0) :
    streamWrites efilter (fun m => some (e m)) lr msgs
      = (msgs.filter (efilter lr)).map e :=
  streamLoop_nolimit efilter e lr hL msgs 0

/-- Witness for C3: limit 0 and a trivial filter — all three texts are
written. -/
theorem no_limit_writes_all_witness :
    streamWrites (fun _ _ => true) (fun m => some m.Text) Request.empty
      [⟨"f", "i", ⟨0⟩, "a"⟩, ⟨"f", "i", ⟨0⟩, "b"⟩, ⟨"f", "i", ⟨0⟩, "c"⟩]
      = ["a", "b", "c"] := by
  have h := no_limit_writes_all (fun _ _ => true) (fun m => m.Text) Request.empty
    [⟨"f", "i", ⟨0⟩, "a"⟩, ⟨"f", "i", ⟨0⟩, "b"⟩, ⟨"f", "i", ⟨0⟩, "c"⟩] (by decide)
  exact h.trans (by decide)

/-- C4: when serialization fails on one kept message (after succeeding on
the kept messages before it, the limit not yet reached), the loop writes
exactly one best-effort fallback line — the encoding of
`Message{Text := "failed to serialize log message"}` — after the earlier
messages and terminates: nothing from `post` is written. -/
theorem serialization_failure_fallback (efilter : Request → Message → Bool)
    (enc : Message → Option String) (e : Message → String) (lr : Request)
    (pre : List Message) (bad : Message) (post : List Message) (fl : String)
    (h1 : ∀ m ∈ pre, efilter lr m = true → enc m = some (e m))
    (h2 : efilter lr bad = true) (h3 : enc bad = none)
    (h4 : lr.Limit ≤ 0 ∨ (((pre.filter (efilter lr)).length : Nat) : Int) < lr.Limit)
    (h5 : enc fallbackMessage = some fl) :
    streamWrites efilter enc lr (pre ++ bad :: post)
      = ((pre.filter (efilter lr)).map e) ++ [fl] := by
  have h := streamLoop_fault efilter enc e lr bad post h2 h3 pre 0 h1 (by simpa using h4)
  rw [streamWrites, h]
  simp [fallbackWrite, h5]

/-- Witness for C4: the encoder fails on the middle message; the output is
the first text followed by the single fallback line, and the third message
is never written. -/
theorem serialization_failure_fallback_witness :
    streamWrites (fun _ _ => true)
      (fun m => if m.Text = "bad" then none else some m.Text) Request.empty
      [⟨"f", "i", ⟨0⟩, "a"⟩, ⟨"f", "i", ⟨0⟩, "bad"⟩, ⟨"f", "i", ⟨0⟩, "c"⟩]
      = ["a", "failed to serialize log message"] := by
  have h := serialization_failure_fallback (fun _ _ => true)
    (fun m => if m.Text = "bad" then none else some m.Text) (fun m => m.Text)
    Request.empty [⟨"f", "i", ⟨0⟩, "a"⟩] ⟨"f", "i", ⟨0⟩, "bad"⟩ [⟨"f", "i", ⟨0⟩, "c"⟩]
    "failed to serialize log message"
    (by decide) (by decide) (by decide) (by decide) (by decide)
  exact h.trans (by decide)

/-! ### Lemmas about the parser -/

theorem getValue_eq_getLast (q : QueryValues) (name : String) :
    getValue q name = ((getAll q name).getLast?).getD "" := by
  cases h : getAll q name with
  | nil => simp [getValue, h]
  | cons a l => simp [getValue, h, List.getLastD_eq_getLast?]

theorem parseGet_eq_parseGetLast (pt : String → Option GoTime) (q : QueryValues) :
    parseGet pt q
      = parseGetLast pt (getValue q "name") (getValue q "instance") (getValue q "limit")
          (getValue q "follow") (getValue q "invert") (getValue q "since")
          ((getAll q "pattern").getLast?) := by
  unfold parseGet parseGetLast
  cases h : getAll q "pattern" with
  | nil => simp [h]
  | cons a l => simp [h, List.getLast?_isSome]

/-! ### Claim theorems for the parser -/

/-- C5: the GET parser reads the query string only through the last
occurrence of each key: two query strings whose per-key last occurrences
agree parse identically, so a repeated key resolves to its last value. -/
theorem last_occurrence_wins (pt : String → Option GoTime) (q q' : QueryValues)
    (h : ∀ k : String, (getAll q k).getLast? = (getAll q' k).getLast?) :
    parseGet pt q = parseGet pt q' := by
  rw [parseGet_eq_parseGetLast, parseGet_eq_parseGetLast]
  simp only [getValue_eq_getLast]
  rw [h "name", h "instance", h "limit", h "follow", h "invert", h "since", h "pattern"]

/-- Witness for C5: `name=a&name=b` parses the same as `name=b`. -/
theorem last_occurrence_wins_witness :
    parseGet (fun _ => none) [("name", "a"), ("name", "b")]
      = parseGet (fun _ => none) [("name", "b")] := by
  apply last_occurrence_wins
  intro k
  by_cases hk : "name" = k
  · subst hk; decide
  · simp [getAll, List.filter_cons, beq_iff_eq, hk]

/-- C6: on a successfully parsed GET query string the `Pattern` field is the
last occurrence of the `pattern` key when that key occurs at least once, and
`none` when it is absent — so a present-but-empty pattern (`some ""`) stays
distinguishable from an absent one (`none`). -/
theorem pattern_presence (pt : String → Option GoTime) (q : QueryValues)
    (h : (parseGet pt q).2 = false) :
    (parseGet pt q).1.Pattern = (getAll q "pattern").getLast?
      ∧ ((parseGet pt q).1.Pattern.isSome ↔ getAll q "pattern" ≠ []) := by
  by_cases h1 : getValue q "limit" ≠ "" ∧ atoi (getValue q "limit") = none
  · simp [parseGet, h1] at h
  · by_cases h2 : getValue q "since" ≠ "" ∧ pt (getValue q "since") = none
    · simp [parseGet, h1, h2] at h
    · cases hp : getAll q "pattern" with
      | nil =>
        simp [parseGet, h1, h2, hp, apply_ite Request.Pattern, Request.empty]
      | cons a l =>
        simp [parseGet, h1, h2, hp, List.getLast?_isSome]

/-- Witness for C6: `pattern=` (present but empty) parses without error and
yields a present-but-empty pattern. -/
theorem pattern_presence_witness :
    (parseGet (fun _ => none) [("pattern", "")]).1.Pattern
        = (getAll [("pattern", "")] "pattern").getLast?
      ∧ ((parseGet (fun _ => none) [("pattern", "")]).1.Pattern.isSome
          ↔ getAll [("pattern", "")] "pattern" ≠ []) :=
  pattern_presence (fun _ => none) [("pattern", "")] (by decide)

/-- C7: when `parseRequest` fails, the handler (on a streaming-capable
transport) responds 422 and never invokes the requestor's `Query`. -/
theorem parse_error_gives_422_no_query (pt : String → Option GoTime)
    (qsrc : Request → Except Unit (List Message))
    (efilter : Request → Message → Bool) (enc : Message → Option String)
    (r : HttpRequest) (h : (parseRequest pt r).2 = true) :
    logHandler true true pt qsrc efilter enc r = ⟨422, false, []⟩ := by
  simp [logHandler, h]

/-- Witness for C7: a GET request with the non-numeric `limit=abc` gets a
422 response with the requestor's `Query` not called. -/
theorem parse_error_gives_422_no_query_witness :
    logHandler true true (fun _ => none)
      (fun _ => (Except.ok [] : Except Unit (List Message))) (fun _ _ => true)
      (fun m => some m.Text) ⟨.get, [("limit", "abc")], (Request.empty, false)⟩
      = ⟨422, false, []⟩ :=
  parse_error_gives_422_no_query (fun _ => none)
    (fun _ => (Except.ok [] : Except Unit (List Message))) (fun _ _ => true)
    (fun m => some m.Text) ⟨.get, [("limit", "abc")], (Request.empty, false)⟩
    (by decide)

/-- C8: on a GET query string whose `limit` value is well-formed, parsing
returns a non-nil error exactly when the `since` value is non-empty and
rejected by the RFC 3339 parse oracle, and an absent or empty `since` leaves
the `Since` field unset. -/
theorem since_error_iff (pt : String → Option GoTime) (q : QueryValues)
    (hl : getValue q "limit" = "" ∨ (atoi (getValue q "limit")).isSome) :
    ((parseGet pt q).2 = true
        ↔ (getValue q "since" ≠ "" ∧ pt (getValue q "since") = none))
      ∧ (getValue q "since" = "" → (parseGet pt q).1.Since = none) := by
  have h1 : ¬(getValue q "limit" ≠ "" ∧ atoi (getValue q "limit") = none) := by
    rintro ⟨ha, hb⟩
    rcases hl with hl | hl
    · exact ha hl
    · rw [hb] at hl
      simp at hl
  constructor
  · by_cases h2 : getValue q "since" ≠ "" ∧ pt (getValue q "since") = none
    · simp [parseGet, h1, h2]
    · simp [parseGet, h1, h2]
  · intro hS
    have h2 : ¬(getValue q "since" ≠ "" ∧ pt (getValue q "since") = none) := by
      simp [hS]
    simp [parseGet, h1, h2, hS, apply_ite Request.Since, Request.empty]

/-- Witness for C8: `since=notatime` (oracle rejects everything) makes the
parse fail, and the error-iff instance holds at that query string. -/
theorem since_error_iff_witness :
    ((parseGet (fun _ => none) [("since", "notatime")]).2 = true
        ↔ (getValue [("since", "notatime")] "since" ≠ ""
            ∧ (fun _ => (none : Option GoTime)) (getValue [("since", "notatime")] "since")
                = none))
      ∧ (getValue [("since", "notatime")] "since" = ""
          → (parseGet (fun _ => none) [("since", "notatime")]).1.Since = none) :=
  since_error_iff (fun _ => none) [("since", "notatime")] (by decide)

/-- C9: on a GET query string whose `limit` and `since` values are
well-formed, parsing succeeds with no error even when the `follow` or
`invert` value is rejected by `strconv.ParseBool`, and the rejected field
resolves to `false`. -/
theorem bool_parse_failure_defaults_false (pt : String → Option GoTime) (q : QueryValues)
    (hl : getValue q "limit" = "" ∨ (atoi (getValue q "limit")).isSome)
    (hs : getValue q "since" = "" ∨ (pt (getValue q "since")).isSome) :
    (parseGet pt q).2 = false
      ∧ (parseBool (getValue q "follow") = none → (parseGet pt q).1.Follow = false)
      ∧ (parseBool (getValue q "invert") = none → (parseGet pt q).1.Invert = false) := by
  have h1 : ¬(getValue q "limit" ≠ "" ∧ atoi (getValue q "limit") = none) := by
    rintro ⟨ha, hb⟩
    rcases hl with hl | hl
    · exact ha hl
    · rw [hb] at hl
      simp at hl
  have h2 : ¬(getValue q "since" ≠ "" ∧ pt (getValue q "since") = none) := by
    rintro ⟨ha, hb⟩
    rcases hs with hs | hs
    · exact ha hs
    · rw [hb] at hs
      simp at hs
  refine ⟨by simp [parseGet, h1, h2], fun hF => ?_, fun hI => ?_⟩
  · simp [parseGet, h1, h2, hF, apply_ite Request.Follow, Request.empty]
  · simp [parseGet, h1, h2, hI, apply_ite Request.Invert, Request.empty]

/-- Witness for C9: `follow=notabool&invert=nah` parses with no error and
both flags resolve to `false`. -/
theorem bool_parse_failure_defaults_false_witness :
    (parseGet (fun _ => none) [("follow", "notabool"), ("invert", "nah")]).2 = false
      ∧ (parseBool (getValue [("follow", "notabool"), ("invert", "nah")] "follow") = none
          → (parseGet (fun _ => none) [("follow", "notabool"), ("invert", "nah")]).1.Follow
              = false)
      ∧ (parseBool (getValue [("follow", "notabool"), ("invert", "nah")] "invert") = none
          → (parseGet (fun _ => none) [("follow", "notabool"), ("invert", "nah")]).1.Invert
              = false) :=
  bool_parse_failure_defaults_false (fun _ => none)
    [("follow", "notabool"), ("invert", "nah")] (by decide) (by decide)

/-- C10: on a GET query string with well-formed `limit` and a non-empty
`since` value the oracle rejects, the partially populated request returned
alongside the error has `Since` set to the zero timestamp (Go assigns
`&since` before checking the parse error), not left unset. -/
theorem malformed_since_partial_zero (pt : String → Option GoTime) (q : QueryValues)
    (hl : getValue q "limit" = "" ∨ (atoi (getValue q "limit")).isSome)
    (hS : getValue q "since" ≠ "") (hp : pt (getValue q "since") = none) :
    (parseGet pt q).1.Since = some GoTime.zero ∧ (parseGet pt q).2 = true := by
  have h1 : ¬(getValue q "limit" ≠ "" ∧ atoi (getValue q "limit") = none) := by
    rintro ⟨ha, hb⟩
    rcases hl with hl | hl
    · exact ha hl
    · rw [hb] at hl
      simp at hl
  have h2 : getValue q "since" ≠ "" ∧ pt (getValue q "since") = none := ⟨hS, hp⟩
  simp [parseGet, h1, h2, hp, GoTime.zero]

/-- Witness for C10: `since=notatime` fails to parse and the partial request
carries `Since = some GoTime.zero`. -/
theorem malformed_since_partial_zero_witness :
    (parseGet (fun _ => none) [("since", "notatime")]).1.Since = some GoTime.zero
      ∧ (parseGet (fun _ => none) [("since", "notatime")]).2 = true :=
  malformed_since_partial_zero (fun _ => none) [("since", "notatime")]
    (by decide) (by decide) (by decide)
